/-
Verification of the MBM Music Visualizer core (src/mbmMusicVisualizer.py,
class MusicVisualizer) against its natural-language specification.

The embedding is a shallow one:
  * torch tensors are flattened lists of rationals (`Tensor := List ℚ`);
    `torch.mean` becomes `tmean` (sum divided by length);
  * the stdlib `random` generator (seeded by `random.seed(seed)` at line 107)
    is a stream of rationals with a cursor (`PyState`); `random.random()`
    and `random.randint` each consume one stream element;
  * the numpy module-level generator consumed by `np.random.normal`
    (line 295) is a second, independent stream (`NpState`).  Line 108
    (`np.random.default_rng(seed)`) builds a fresh generator object and
    discards it, so the module-level numpy state is left untouched by
    `process`; the embedding therefore takes the incoming numpy state as an
    explicit argument that is *not* derived from the seed;
  * the external sampler (`common_ksampler`, line 158) is an explicit
    function argument from call payloads to image tensors; the per-run
    constant sampler settings (model, steps, cfg, sampler_name, scheduler,
    denoise) are absorbed into that function, while the per-frame varying
    arguments (seed, conditioning, latent) form the recorded `SamplerCall`;
  * `MbmPrompt` and `buildComfyUiPrompt` live in mbmPrompt.py, which is not
    part of the sources; they are modelled from the spec as opaque payload
    containers;
  * Python exceptions become `Except ProcError`; `IndexError` from a
    sequence subscript out of range is `ProcError.indexError`, and
    `raise ValueError(msg)` is `ProcError.valueError msg`;
  * the tqdm progress bar (lines 138, 150-155) is display-only and is not
    modelled; the matplotlib chart rendering (`chartData`, line 218) is an
    external collaborator: the embedding exposes the exact array handed to
    it (`trajectory`) instead of the rendered picture.

A second, store-passing embedding of the same loop (`processS` below)
makes the heap explicit in order to reason about aliasing and in-place
mutation (`latent += modifier` at line 322 mutates the tensor object):
tensors live in an addressed store, the caller's tensor sits at address 0,
and `.clone()` (line 137) allocates a fresh cell.
-/
import Mathlib

/-- A torch tensor, flattened to its list of scalar entries (floats are
modelled as rationals). -/
abbrev Tensor := List ℚ

/-- `torch.mean` of a flattened tensor: sum of the entries divided by their
number. -/
def tmean (t : Tensor) : ℚ := t.sum / (t.length : ℚ)

/-- The two `FEAT_APPLY_METHOD_*` constants (lines 51-52). -/
inductive FeatMethod
  | add
  | subtract
deriving DecidableEq

/-- The six `LATENT_MODE_*` constants (lines 44-49). `gauss` stands for the
source string `"guassian"` (sic). -/
inductive LatentMode
  | static
  | increase
  | decrease
  | flow
  | gauss
  | bounce
deriving DecidableEq

/-- The four `SEED_MODE_*` constants (lines 39-42). -/
inductive SeedMode
  | fixed
  | random
  | increase
  | decrease
deriving DecidableEq

/-- State of the stdlib `random` generator: a stream of rationals and a
cursor.  `random.seed(seed)` replaces the whole state. -/
structure PyState where
  stream : Nat → ℚ
  idx : Nat

/-- Draw one value from the stdlib `random` generator. -/
def pyNext (s : PyState) : ℚ × PyState :=
  (s.stream s.idx, { s with idx := s.idx + 1 })

/-- State of the numpy module-level generator used by `np.random.normal`:
a stream of standard-normal variates and a cursor. -/
structure NpState where
  stream : Nat → ℚ
  idx : Nat

/-- The mutable state `process` touches besides the latent itself: the
instance flag `self.__isBouncingUp` (line 61) and the two random-generator
states. -/
structure VizState where
  isBouncingUp : Bool
  py : PyState
  np : NpState

/-- `_applyFeatToLatent` (lines 297-333): bounded broadcast add/subtract.
The in-place `latent += modifier` / `latent -= modifier` is rendered here
at the level of values; the store-passing variant below captures the
mutation itself. -/
def applyFeatToLatent (latent : Tensor) (method : FeatMethod)
    (modLimit modifier : ℚ) : Tensor :=
  match method with
  | .add =>
    -- lines 314-322
    if modLimit > 0 ∧ tmean latent + modifier > modLimit then
      latent
    else
      latent.map (· + modifier)
  | .subtract =>
    -- lines 323-331
    if modLimit > 0 ∧ tmean latent - modifier < -modLimit then
      latent
    else
      latent.map (· - modifier)

/-- `_createLatent` (lines 286-295): `np.random.normal(3, 2.5, size=size)`
draws `size` variates from the numpy module-level generator; each sample is
mean 3 plus standard deviation 5/2 times a standard-normal draw. -/
def createLatent (np : NpState) (size : Nat) : Tensor × NpState :=
  ((List.range size).map (fun k => 3 + 5 / 2 * np.stream (np.idx + k)),
   { np with idx := np.idx + size })

/-- Mode resolution inside `_iterateLatentByMode` (lines 244-270): `flow`
resolves to a coin flip between `increase` and `decrease`; `bounce`
resolves by comparing the candidate next mean against the bound, flipping
`self.__isBouncingUp` when the candidate falls outside `[-modLimit,
modLimit]`.  `curMean` is `torch.mean(latent)` as computed at line 257. -/
def resolveLatentMode (latentMode : LatentMode) (modLimit modifier curMean : ℚ)
    (st : VizState) : LatentMode × VizState :=
  -- lines 245-250: flow picks a direction with probability 1/2 each; the
  -- resolved direction is never `bounce`, so the bounce branch below is
  -- not reached in that case
  if latentMode = .flow then
    ((if (pyNext st.py).1 < 1 / 2 then .increase else .decrease),
     { st with py := (pyNext st.py).2 })
  -- lines 252-270: bounce
  else if latentMode = .bounce then
    if modLimit > 0 then
      if -modLimit ≤ (if st.isBouncingUp then curMean + modifier
            else curMean - modifier) ∧
          (if st.isBouncingUp then curMean + modifier
            else curMean - modifier) ≤ modLimit then
        -- line 263: within bounds, direction unchanged
        ((if st.isBouncingUp then .increase else .decrease), st)
      else
        -- lines 266-267: outside of bounds, flip
        ((if st.isBouncingUp then .decrease else .increase),
         { st with isBouncingUp := !st.isBouncingUp })
    else
      -- lines 268-270: no limit so just increase
      (.increase, st)
  else
    (latentMode, st)

/-- `_iterateLatentByMode` (lines 228-284), value-level: resolve the mode,
then dispatch to add / subtract / fresh gaussian latent / unchanged. -/
def iterateLatentByMode (latent : Tensor) (latentMode : LatentMode)
    (modLimit modifier : ℚ) (st : VizState) : Tensor × VizState :=
  match resolveLatentMode latentMode modLimit modifier (tmean latent) st with
  | (.increase, st2) => (applyFeatToLatent latent .add modLimit modifier, st2)
  | (.decrease, st2) =>
    (applyFeatToLatent latent .subtract modLimit modifier, st2)
  | (.gauss, st2) =>
    ((createLatent st2.np latent.length).1,
     { st2 with np := (createLatent st2.np latent.length).2 })
  | (_, st2) =>
    -- lines 282-284: LATENT_MODE_STATIC (the resolved mode is never
    -- `flow` or `bounce` at this point)
    (latent, st2)

/-- The value `random.randint(0, 0xffffffffffffffff)` derives from the
stream draw (line 346); the exact mapping is irrelevant to the claims. -/
def randintOf (r : ℚ) : Int := Int.floor (r * (2 ^ 64 : ℚ))

/-- `_iterateSeedByMode` (lines 335-355). Python integers are unbounded,
so the seed is an `Int` (line 352 can go below zero). -/
def iterateSeedByMode (seed : Int) (seedMode : SeedMode) (py : PyState) :
    Int × PyState :=
  match seedMode with
  | .random =>
    let (r, py') := pyNext py
    (randintOf r, py')
  | .increase => (seed + 1, py)
  | .decrease => (seed - 1, py)
  | .fixed => (seed, py)

/-- Modelled from the spec: `MbmPrompt` lives in mbmPrompt.py, which is not
among the sources.  Per §3 and §6 of the spec a PromptFrame carries opaque
positive/negative conditioning payloads plus optional pooling data; the
payload entries are opaque scalars here. -/
structure MbmPrompt where
  positive : List ℚ
  negative : List ℚ
  positivePool : Option ℚ
  negativePool : Option ℚ
deriving DecidableEq

/-- A conditioning structure as handed to the sampler. -/
structure ComfyPrompt where
  conds : List ℚ
  pool : Option ℚ
deriving DecidableEq

/-- Modelled from the spec: `MbmPrompt.buildComfyUiPrompt` (mbmPrompt.py,
not among the sources) packages a conditioning payload with its pool; it is
opaque to this core (§6 "Prompt builder"). -/
def buildComfyUiPrompt (conds : List ℚ) (pool : Option ℚ) : ComfyPrompt :=
  { conds := conds, pool := pool }

/-- The per-frame varying arguments of one `common_ksampler` invocation
(lines 158-169). -/
structure SamplerCall where
  seed : Int
  promptPos : ComfyPrompt
  promptNeg : ComfyPrompt
  latent : Tensor
deriving DecidableEq

/-- Placeholder sampler call used as a `getD` default. -/
def dummyCall : SamplerCall :=
  { seed := 0, promptPos := buildComfyUiPrompt [] none,
    promptNeg := buildComfyUiPrompt [] none, latent := [] }

/-- The inputs of `process` (lines 88-104) that the claims are about.  The
fixed sampler settings (model, steps, cfg, sampler_name, scheduler,
denoise) are absorbed into the sampler function. -/
structure Config where
  prompts : List MbmPrompt
  latentMods : List ℚ
  seed : Int
  latentSamples : Tensor
  seedMode : SeedMode
  latentMode : LatentMode
  imageLimit : Int
  latentModLimit : ℚ

/-- Python exceptions surfaced by `process`. -/
inductive ProcError
  | indexError
  | valueError (msg : String)
deriving DecidableEq

/-- The loop-carried state of the generation loop (lines 134-195). -/
structure LoopAcc where
  latent : Tensor
  promptPos : ComfyPrompt
  promptNeg : ComfyPrompt
  seed : Int
  st : VizState
  frames : List Tensor
  calls : List SamplerCall
  traj : List ℚ

/-- The sampler call a loop iteration issues from accumulator state `acc`
with the freshly iterated latent `L2` (lines 158-169). -/
def mkCall (acc : LoopAcc) (L2 : Tensor) : SamplerCall :=
  { seed := acc.seed, promptPos := acc.promptPos,
    promptNeg := acc.promptNeg, latent := L2 }

/-- The generation loop (lines 138-195), one recursive step per index of
`range(desiredFrames)`.  Each step: read `latent_mods[i]` (IndexError when
out of range), advance the latent, record its mean in the trajectory
array, invoke the sampler and stack its output, then either break on the
image limit (line 180) or advance seed and prompt pointers. -/
def processLoop (sampler : SamplerCall → Tensor) (cfg : Config)
    (d pc : Nat) : List Nat → LoopAcc → Except ProcError LoopAcc
  | [], acc => .ok acc
  | i :: rest, acc =>
    match cfg.latentMods[i]? with
    | none => .error .indexError
    | some modifier =>
      -- lines 140-145
      let step := iterateLatentByMode acc.latent cfg.latentMode
        cfg.latentModLimit modifier acc.st
      -- line 148
      let traj' := acc.traj.set i (tmean step.1)
      -- lines 158-177
      let call : SamplerCall :=
        { seed := acc.seed, promptPos := acc.promptPos,
          promptNeg := acc.promptNeg, latent := step.1 }
      let acc' : LoopAcc :=
        { acc with latent := step.1, st := step.2, traj := traj',
                   frames := acc.frames ++ [sampler call],
                   calls := acc.calls ++ [call] }
      -- lines 180-181: limit break happens before seed/prompt advance
      if 0 < cfg.imageLimit ∧ (i : Int) ≥ cfg.imageLimit - 1 then
        .ok acc'
      else
        -- line 184
        let sp := iterateSeedByMode acc'.seed cfg.seedMode acc'.st.py
        let acc'' : LoopAcc :=
          { acc' with seed := sp.1, st := { acc'.st with py := sp.2 } }
        -- lines 187-195
        if 1 < pc ∧ i + 1 < d then
          match cfg.prompts[i + 1]? with
          | none => .error .indexError
          | some p =>
            processLoop sampler cfg d pc rest
              { acc'' with
                  promptPos := buildComfyUiPrompt p.positive p.positivePool,
                  promptNeg := buildComfyUiPrompt p.negative p.negativePool }
        else
          processLoop sampler cfg d pc rest acc''

/-- What a finished run exposes: the stacked sampler outputs (slices of
`outputTensor`), the `latentTensorMeans` array handed to `chartData`, the
recorded sampler invocations, the final value of the local `seed`, and the
instance / module-global state left behind for a subsequent run. -/
structure ProcessResult where
  frames : List Tensor
  trajectory : List ℚ
  samplerCalls : List SamplerCall
  finalSeed : Int
  finalIsBouncingUp : Bool
  finalNp : NpState

/-- The loop accumulator at entry of the loop (lines 125-137): prompt
pointers on `prompts[0]`, `latentTensorMeans = np.zeros(desiredFrames)`,
and the working latent a clone of the caller's tensor. -/
def initAcc (pyGen : Int → Nat → ℚ) (npGlobal : NpState)
    (isBouncingUp : Bool) (cfg : Config) (p0 : MbmPrompt) : LoopAcc :=
  { latent := cfg.latentSamples,
    promptPos := buildComfyUiPrompt p0.positive p0.positivePool,
    promptNeg := buildComfyUiPrompt p0.negative p0.negativePool,
    seed := cfg.seed,
    st := { isBouncingUp := isBouncingUp,
            py := { stream := pyGen cfg.seed, idx := 0 },
            np := npGlobal },
    frames := [], calls := [],
    traj := List.replicate p0.positive.length 0 }

/-- Projection from the final loop accumulator to the run's result. -/
def mkResult (a : LoopAcc) : ProcessResult :=
  { frames := a.frames, trajectory := a.traj, samplerCalls := a.calls,
    finalSeed := a.seed, finalIsBouncingUp := a.st.isBouncingUp,
    finalNp := a.st.np }

/-- `process` (lines 88-225).  `pyGen` is the stdlib generator algorithm:
`random.seed(seed)` (line 107) makes the stdlib stream `pyGen seed`.
`npGlobal` is the incoming numpy module-level state; line 108
(`np.random.default_rng(seed)`) creates a fresh generator object and
discards it, leaving `npGlobal` untouched.  `isBouncingUp` is the incoming
value of the instance field `self.__isBouncingUp`.  Line 111 subscripts
`prompts[0]` before any validation runs, so an empty prompt list raises
IndexError there; the `len(prompts) == 0` check at lines 120-121 is
unreachable for that input. -/
def process (sampler : SamplerCall → Tensor) (pyGen : Int → Nat → ℚ)
    (npGlobal : NpState) (isBouncingUp : Bool) (cfg : Config) :
    Except ProcError ProcessResult :=
  -- line 111: `desiredFrames = len(prompts[0].positive)`
  match cfg.prompts[0]? with
  | none => .error .indexError
  | some p0 =>
    -- lines 116-117
    if cfg.latentMode = .bounce ∧ cfg.latentModLimit ≤ 0 then
      .error (.valueError
        "Latent Mod Limit must be set to `>0` when using the `bounce` Latent Mode")
    -- lines 120-121
    else if cfg.prompts.length = 0 then
      .error (.valueError "At least one prompt is required.")
    else
      (processLoop sampler cfg p0.positive.length cfg.prompts.length
        (List.range p0.positive.length)
        (initAcc pyGen npGlobal isBouncingUp cfg p0)).map mkResult

/-- `desiredFrames` as a function of the configuration (line 111), for
configurations with at least one prompt. -/
def desiredFramesOf (cfg : Config) : Nat :=
  (cfg.prompts.headD { positive := [], negative := [],
                       positivePool := none, negativePool := none }).positive.length

/-- `self.__isBouncingUp = True` in the constructor (line 61): the value of
the flag on a freshly constructed visualizer. -/
def initIsBouncingUp : Bool := true

/-- Number of loop iterations that produce a frame, over a list of frame
indices: mirrors the break condition of line 180. -/
def framesFromList (limit : Int) : List Nat → Nat
  | [] => 0
  | i :: rest =>
    if 0 < limit ∧ (i : Int) ≥ limit - 1 then 1
    else 1 + framesFromList limit rest

/-- Whether the line-180 break fires at some index of the list before the
list is exhausted. -/
def breakFires (limit : Int) : List Nat → Bool
  | [] => false
  | i :: rest =>
    if 0 < limit ∧ (i : Int) ≥ limit - 1 then true
    else breakFires limit rest

/-- A heap of tensor objects; references are list indices.  Used to make
the aliasing structure of the Python code explicit: `latent += modifier`
mutates the cell the reference points at, `.clone()` and `_createLatent`
allocate fresh cells. -/
abbrev Store := List Tensor

/-- `_applyFeatToLatent` (lines 297-333), store-passing: on the clamp
branch the same object is returned untouched; otherwise the cell at `ref`
is overwritten in place (`latent += modifier`, line 322 / line 331) and
the same reference is returned. -/
def applyFeatToLatentS (store : Store) (ref : Nat) (method : FeatMethod)
    (modLimit modifier : ℚ) : Store × Nat :=
  match method with
  | .add =>
    if modLimit > 0 ∧ tmean (store.getD ref []) + modifier > modLimit then
      (store, ref)
    else
      (store.set ref ((store.getD ref []).map (· + modifier)), ref)
  | .subtract =>
    if modLimit > 0 ∧ tmean (store.getD ref []) - modifier < -modLimit then
      (store, ref)
    else
      (store.set ref ((store.getD ref []).map (· - modifier)), ref)

/-- `_iterateLatentByMode` (lines 228-284), store-passing: gaussian mode
allocates a fresh tensor object (line 295) and returns a reference to it;
static mode returns the incoming reference. -/
def iterateLatentByModeS (store : Store) (ref : Nat) (latentMode : LatentMode)
    (modLimit modifier : ℚ) (st : VizState) : (Store × Nat) × VizState :=
  match resolveLatentMode latentMode modLimit modifier
      (tmean (store.getD ref [])) st with
  | (.increase, st2) => (applyFeatToLatentS store ref .add modLimit modifier, st2)
  | (.decrease, st2) =>
    (applyFeatToLatentS store ref .subtract modLimit modifier, st2)
  | (.gauss, st2) =>
    ((store ++ [(createLatent st2.np (store.getD ref []).length).1],
      store.length),
     { st2 with np := (createLatent st2.np (store.getD ref []).length).2 })
  | (_, st2) => ((store, ref), st2)

/-- Loop-carried state of the store-passing rendering of the loop. -/
structure StoreAcc where
  store : Store
  ref : Nat
  promptPos : ComfyPrompt
  promptNeg : ComfyPrompt
  seed : Int
  st : VizState
  frames : List Tensor
  calls : List SamplerCall
  traj : List ℚ

/-- The sampler call a store-loop iteration issues from accumulator state
`acc` with the current latent value `L2` (lines 158-169). -/
def mkCallS (acc : StoreAcc) (L2 : Tensor) : SamplerCall :=
  { seed := acc.seed, promptPos := acc.promptPos,
    promptNeg := acc.promptNeg, latent := L2 }

/-- The generation loop (lines 138-195), store-passing rendering.  The
sampler receives the current value of the cell the working reference
points at (the object passed as `{"samples": latentTensor}`). -/
def processLoopS (sampler : SamplerCall → Tensor) (cfg : Config)
    (d pc : Nat) : List Nat → StoreAcc → Except ProcError StoreAcc
  | [], acc => .ok acc
  | i :: rest, acc =>
    match cfg.latentMods[i]? with
    | none => .error .indexError
    | some modifier =>
      let step := iterateLatentByModeS acc.store acc.ref cfg.latentMode
        cfg.latentModLimit modifier acc.st
      let curVal := step.1.1.getD step.1.2 []
      let traj' := acc.traj.set i (tmean curVal)
      let call : SamplerCall :=
        { seed := acc.seed, promptPos := acc.promptPos,
          promptNeg := acc.promptNeg, latent := curVal }
      let acc' : StoreAcc :=
        { acc with store := step.1.1, ref := step.1.2, st := step.2,
                   traj := traj',
                   frames := acc.frames ++ [sampler call],
                   calls := acc.calls ++ [call] }
      if 0 < cfg.imageLimit ∧ (i : Int) ≥ cfg.imageLimit - 1 then
        .ok acc'
      else
        let sp := iterateSeedByMode acc'.seed cfg.seedMode acc'.st.py
        let acc'' : StoreAcc :=
          { acc' with seed := sp.1, st := { acc'.st with py := sp.2 } }
        if 1 < pc ∧ i + 1 < d then
          match cfg.prompts[i + 1]? with
          | none => .error .indexError
          | some p =>
            processLoopS sampler cfg d pc rest
              { acc'' with
                  promptPos := buildComfyUiPrompt p.positive p.positivePool,
                  promptNeg := buildComfyUiPrompt p.negative p.negativePool }
        else
          processLoopS sampler cfg d pc rest acc''

/-- `process` (lines 88-225), store-passing rendering.  The caller's
tensor `latent_image["samples"]` is the cell at address 0; line 137
(`latent_image["samples"].clone()`) allocates a fresh cell at address 1
holding a copy of its value, and the loop works on that reference. -/
def processS (sampler : SamplerCall → Tensor) (pyGen : Int → Nat → ℚ)
    (npGlobal : NpState) (isBouncingUp : Bool) (cfg : Config) :
    Except ProcError StoreAcc :=
  match cfg.prompts[0]? with
  | none => .error .indexError
  | some p0 =>
    if cfg.latentMode = .bounce ∧ cfg.latentModLimit ≤ 0 then
      .error (.valueError
        "Latent Mod Limit must be set to `>0` when using the `bounce` Latent Mode")
    else if cfg.prompts.length = 0 then
      .error (.valueError "At least one prompt is required.")
    else
      processLoopS sampler cfg p0.positive.length cfg.prompts.length
        (List.range p0.positive.length)
        { store := [cfg.latentSamples, cfg.latentSamples], ref := 1,
          promptPos := buildComfyUiPrompt p0.positive p0.positivePool,
          promptNeg := buildComfyUiPrompt p0.negative p0.negativePool,
          seed := cfg.seed,
          st := { isBouncingUp := isBouncingUp,
                  py := { stream := pyGen cfg.seed, idx := 0 },
                  np := npGlobal },
          frames := [], calls := [],
          traj := List.replicate p0.positive.length 0 }

/-- Concrete sampler used by the closed evaluation theorems: echoes the
latent it is given. -/
def s0 : SamplerCall → Tensor := fun c => c.latent

/-- Concrete stdlib generator algorithm for the closed theorems. -/
def g0 : Int → Nat → ℚ := fun _ _ => 0

/-- One concrete incoming numpy module-level state. -/
def np0 : NpState := { stream := fun _ => 0, idx := 0 }

/-- A different concrete incoming numpy module-level state. -/
def np1 : NpState := { stream := fun _ => 1, idx := 0 }

/-- A concrete `VizState` for the step-level witnesses. -/
def st0 : VizState :=
  { isBouncingUp := true, py := { stream := fun _ => 0, idx := 0 }, np := np0 }

/-- A one-frame prompt sequence entry. -/
def p1 : MbmPrompt :=
  { positive := [0], negative := [], positivePool := none, negativePool := none }

/-- Gaussian-mode configuration for the determinism analysis (C3). -/
def cfgG : Config :=
  { prompts := [p1], latentMods := [0], seed := 0, latentSamples := [0],
    seedMode := .fixed, latentMode := .gauss, imageLimit := -1,
    latentModLimit := 5 }

/-- Bounce-mode configuration whose single frame flips the direction flag
(mean 1, modifier 2, limit 2). -/
def cfgB1 : Config :=
  { prompts := [p1], latentMods := [2], seed := 0, latentSamples := [1],
    seedMode := .fixed, latentMode := .bounce, imageLimit := -1,
    latentModLimit := 2 }

/-- Bounce-mode configuration whose single frame is direction-sensitive:
from "bouncing up" the latent mean becomes 2, from "bouncing down" it
becomes 0 (mean 1, modifier 1, limit 3). -/
def cfgB2 : Config :=
  { prompts := [p1], latentMods := [1], seed := 0, latentSamples := [1],
    seedMode := .fixed, latentMode := .bounce, imageLimit := -1,
    latentModLimit := 3 }

/-- Observable projection of a run outcome: the stacked frame tensors. -/
def framesProj (x : Except ProcError ProcessResult) : Option (List Tensor) :=
  match x with
  | .ok r => some r.frames
  | .error _ => none

/-- Observable projection of a run outcome: the trajectory array. -/
def trajProj (x : Except ProcError ProcessResult) : Option (List ℚ) :=
  match x with
  | .ok r => some r.trajectory
  | .error _ => none

/-- Observable projection of a run outcome: the final bounce flag. -/
def flagProj (x : Except ProcError ProcessResult) : Option Bool :=
  match x with
  | .ok r => some r.finalIsBouncingUp
  | .error _ => none


/-- The empty configuration: no prompts at all. -/
def cfgE : Config :=
  { prompts := [], latentMods := [], seed := 0, latentSamples := [],
    seedMode := .fixed, latentMode := .static, imageLimit := -1,
    latentModLimit := 5 }

/-- Bounce mode with a zero mod limit (rejected by validation). -/
def cfgB0 : Config :=
  { prompts := [p1], latentMods := [0], seed := 0, latentSamples := [0],
    seedMode := .fixed, latentMode := .bounce, imageLimit := -1,
    latentModLimit := 0 }

/-- A prompt frame with ten positive conditioning entries. -/
def p10 : MbmPrompt :=
  { positive := List.replicate 10 0, negative := [], positivePool := none,
    negativePool := none }

/-- A prompt frame with three positive conditioning entries. -/
def p3 : MbmPrompt :=
  { positive := [0, 0, 0], negative := [], positivePool := none,
    negativePool := none }

/-- The spec's truncation example: `desiredFrames = 10`, `image_limit = 3`,
three prompt frames (so the prompt pointer advances on the first two
frames and index 3 is never touched), increasing seed. -/
def cfg4 : Config :=
  { prompts := [p10, p1, p1], latentMods := [0, 0, 0], seed := 7,
    latentSamples := [1], seedMode := .increase, latentMode := .static,
    imageLimit := 3, latentModLimit := 5 }

/-- A plain three-frame static run. -/
def cfg8 : Config :=
  { prompts := [p3], latentMods := [5, 5, 5], seed := 0,
    latentSamples := [2, 4], seedMode := .fixed, latentMode := .static,
    imageLimit := -1, latentModLimit := 5 }

/-- A prompt frame with two positive conditioning entries. -/
def p2 : MbmPrompt :=
  { positive := [0, 0], negative := [], positivePool := none,
    negativePool := none }

/-- A two-frame increase-mode run (the in-place mutation path). -/
def cfg9 : Config :=
  { prompts := [p2], latentMods := [1, 1], seed := 0, latentSamples := [1],
    seedMode := .fixed, latentMode := .increase, imageLimit := -1,
    latentModLimit := 5 }

/-- Bounce resolution with a positive limit and an in-bounds candidate
(line 261-263): direction kept, flag untouched. -/
theorem resolveLatentMode_bounce_in (modLimit modifier m : ℚ) (st : VizState)
    (hpos : 0 < modLimit)
    (hin : -modLimit ≤ (if st.isBouncingUp then m + modifier else m - modifier) ∧
      (if st.isBouncingUp then m + modifier else m - modifier) ≤ modLimit) :
    resolveLatentMode .bounce modLimit modifier m st =
      ((if st.isBouncingUp then .increase else .decrease), st) := by
  simp [resolveLatentMode, hpos, hin.1, hin.2]

/-- Bounce resolution with a positive limit and an out-of-bounds candidate
(lines 264-267): direction reversed, flag negated. -/
theorem resolveLatentMode_bounce_out (modLimit modifier m : ℚ) (st : VizState)
    (hpos : 0 < modLimit)
    (hout : ¬ (-modLimit ≤ (if st.isBouncingUp then m + modifier else m - modifier) ∧
      (if st.isBouncingUp then m + modifier else m - modifier) ≤ modLimit)) :
    resolveLatentMode .bounce modLimit modifier m st =
      ((if st.isBouncingUp then .decrease else .increase),
       { st with isBouncingUp := !st.isBouncingUp }) := by
  simp [resolveLatentMode, hpos, hout]

/-- Bounce resolution with a non-positive limit (lines 268-270): plain
increase, flag untouched. -/
theorem resolveLatentMode_bounce_nolimit (modLimit modifier m : ℚ)
    (st : VizState) (hnp : modLimit ≤ 0) :
    resolveLatentMode .bounce modLimit modifier m st = (.increase, st) := by
  simp [resolveLatentMode, not_lt.mpr hnp]

/-- C1: the bounded elementwise apply (`_applyFeatToLatent`) with method
`add` returns the latent completely unchanged when `modLimit > 0` and
`mean(latent) + modifier > modLimit`, and otherwise adds `modifier` to
every element; symmetrically, with method `subtract` it returns the latent
unchanged when `modLimit > 0` and `mean(latent) - modifier < -modLimit`,
and otherwise subtracts `modifier` from every element; when
`modLimit ≤ 0` the bound check is skipped and the add/subtract is always
applied. -/
theorem C1_applyFeat_bounded (latent : Tensor) (modLimit modifier : ℚ) :
    (modLimit > 0 → tmean latent + modifier > modLimit →
      applyFeatToLatent latent .add modLimit modifier = latent) ∧
    (¬ (modLimit > 0 ∧ tmean latent + modifier > modLimit) →
      applyFeatToLatent latent .add modLimit modifier =
        latent.map (· + modifier)) ∧
    (modLimit > 0 → tmean latent - modifier < -modLimit →
      applyFeatToLatent latent .subtract modLimit modifier = latent) ∧
    (¬ (modLimit > 0 ∧ tmean latent - modifier < -modLimit) →
      applyFeatToLatent latent .subtract modLimit modifier =
        latent.map (· - modifier)) ∧
    (modLimit ≤ 0 →
      applyFeatToLatent latent .add modLimit modifier =
          latent.map (· + modifier) ∧
        applyFeatToLatent latent .subtract modLimit modifier =
          latent.map (· - modifier)) := by
  refine ⟨fun h1 h2 => ?_, fun h => ?_, fun h1 h2 => ?_, fun h => ?_,
    fun h => ⟨?_, ?_⟩⟩ <;>
    simp only [applyFeatToLatent]
  · rw [if_pos ⟨h1, h2⟩]
  · rw [if_neg h]
  · rw [if_pos ⟨h1, h2⟩]
  · rw [if_neg h]
  · rw [if_neg (by rintro ⟨h1, _⟩; linarith)]
  · rw [if_neg (by rintro ⟨h1, _⟩; linarith)]

/-- Closed witness for C1: with mean 6, limit 5, modifier 1 the add is a
no-op; with limit 0 the subtract is applied to every element. -/
theorem C1_applyFeat_bounded_witness :
    applyFeatToLatent [6] .add 5 1 = [6] ∧
    applyFeatToLatent [4, 2] .subtract 0 1 = [3, 1] := by
  refine ⟨(C1_applyFeat_bounded [6] 5 1).1 (by norm_num) (by norm_num [tmean]), ?_⟩
  have h := ((C1_applyFeat_bounded [4, 2] 0 1).2.2.2.2 (by norm_num)).2
  rw [h]
  norm_num

/-- C2: a bounce-mode step with `modLimit > 0` computes the candidate
`mean(latent) ± modifier` according to the current direction; if the
candidate lies within `[-modLimit, modLimit]` (bounds inclusive) the step
applies the current direction (add if bouncing up, subtract if bouncing
down) and the flag is unchanged; otherwise the step applies the opposite
direction and the flag is negated; with `modLimit ≤ 0` the bounce step
unconditionally resolves to the add direction. -/
theorem C2_bounce_step (latent : Tensor) (modLimit modifier : ℚ)
    (st : VizState) :
    (modLimit > 0 →
      ((-modLimit ≤ (if st.isBouncingUp then tmean latent + modifier
            else tmean latent - modifier) ∧
        (if st.isBouncingUp then tmean latent + modifier
            else tmean latent - modifier) ≤ modLimit) →
        iterateLatentByMode latent .bounce modLimit modifier st =
          (applyFeatToLatent latent
            (if st.isBouncingUp then .add else .subtract) modLimit modifier,
           st)) ∧
      (¬ (-modLimit ≤ (if st.isBouncingUp then tmean latent + modifier
            else tmean latent - modifier) ∧
          (if st.isBouncingUp then tmean latent + modifier
            else tmean latent - modifier) ≤ modLimit) →
        iterateLatentByMode latent .bounce modLimit modifier st =
          (applyFeatToLatent latent
            (if st.isBouncingUp then .subtract else .add) modLimit modifier,
           { st with isBouncingUp := !st.isBouncingUp }))) ∧
    (modLimit ≤ 0 →
      iterateLatentByMode latent .bounce modLimit modifier st =
        (applyFeatToLatent latent .add modLimit modifier, st)) := by
  refine ⟨fun hpos => ⟨fun hin => ?_, fun hout => ?_⟩, fun hnp => ?_⟩
  · have hres := resolveLatentMode_bounce_in modLimit modifier
      (tmean latent) st hpos hin
    cases hb : st.isBouncingUp <;> rw [hb] at hres <;>
      simp [iterateLatentByMode, hres, hb]
  · have hres := resolveLatentMode_bounce_out modLimit modifier
      (tmean latent) st hpos hout
    cases hb : st.isBouncingUp <;> rw [hb] at hres <;>
      simp [iterateLatentByMode, hres, hb]
  · have hres := resolveLatentMode_bounce_nolimit modLimit modifier
      (tmean latent) st hnp
    simp [iterateLatentByMode, hres]

/-- Closed witness for C2: from mean 0 with modifier 3 and limit 3 the
candidate hits the bound exactly, so the step keeps adding and does not
flip the flag (bound inclusive). -/
theorem C2_bounce_step_witness :
    iterateLatentByMode [0] .bounce 3 3 st0 =
      (applyFeatToLatent [0] (if st0.isBouncingUp then .add else .subtract)
        3 3, st0) :=
  ((C2_bounce_step [0] 3 3 st0).1 (by norm_num)).1
    (by norm_num [st0, tmean])

/-- Resolution is the identity for the non-flow, non-bounce modes
(`static`, `increase`, `decrease`, `guassian`). -/
theorem resolveLatentMode_other (latentMode : LatentMode)
    (modLimit modifier m : ℚ) (st : VizState) (h1 : latentMode ≠ .flow)
    (h2 : latentMode ≠ .bounce) :
    resolveLatentMode latentMode modLimit modifier m st = (latentMode, st) := by
  simp [resolveLatentMode, h1, h2]

/-- A static-mode step returns its input latent and state unchanged
(lines 282-284). -/
theorem iterateLatentByMode_static (latent : Tensor) (modLimit modifier : ℚ)
    (st : VizState) :
    iterateLatentByMode latent .static modLimit modifier st = (latent, st) := by
  have h := resolveLatentMode_other .static modLimit modifier (tmean latent) st
    (by simp) (by simp)
  simp [iterateLatentByMode, h]

/-- An increase-mode step applies the bounded add (lines 273-275). -/
theorem iterateLatentByMode_increase (latent : Tensor) (modLimit modifier : ℚ)
    (st : VizState) :
    iterateLatentByMode latent .increase modLimit modifier st =
      (applyFeatToLatent latent .add modLimit modifier, st) := by
  have h := resolveLatentMode_other .increase modLimit modifier (tmean latent) st
    (by simp) (by simp)
  simp [iterateLatentByMode, h]

/-- A guassian-mode step replaces the latent by fresh noise of the same
size (lines 279-281). -/
theorem iterateLatentByMode_gauss (latent : Tensor) (modLimit modifier : ℚ)
    (st : VizState) :
    iterateLatentByMode latent .gauss modLimit modifier st =
      ((createLatent st.np latent.length).1,
       { st with np := (createLatent st.np latent.length).2 }) := by
  have h := resolveLatentMode_other .gauss modLimit modifier (tmean latent) st
    (by simp) (by simp)
  simp [iterateLatentByMode, h]

/-- Equation: the loop on an empty index list returns the accumulator. -/
theorem processLoop_nil (sampler : SamplerCall → Tensor) (cfg : Config)
    (d pc : Nat) (acc : LoopAcc) :
    processLoop sampler cfg d pc [] acc = .ok acc := rfl

/-- Equation: one loop iteration at index `i` on which the image limit
fires (line 180): the frame is produced, then the loop stops with no seed
or prompt advance. -/
theorem processLoop_cons_break (sampler : SamplerCall → Tensor) (cfg : Config)
    (d pc i : Nat) (rest : List Nat) (acc : LoopAcc) (modifier : ℚ)
    (L2 : Tensor) (st2 : VizState)
    (hm : cfg.latentMods[i]? = some modifier)
    (hit : iterateLatentByMode acc.latent cfg.latentMode cfg.latentModLimit
      modifier acc.st = (L2, st2))
    (hbr : 0 < cfg.imageLimit ∧ (i : Int) ≥ cfg.imageLimit - 1) :
    processLoop sampler cfg d pc (i :: rest) acc =
      .ok { acc with
            latent := L2, st := st2,
            traj := acc.traj.set i (tmean L2),
            frames := acc.frames ++ [sampler (mkCall acc L2)],
            calls := acc.calls ++ [mkCall acc L2] } := by
  simp only [processLoop, hm, hit, if_pos hbr, mkCall]

/-- Equation: one loop iteration at index `i` with no break and no prompt
advance: the frame is produced and the seed advances. -/
theorem processLoop_cons_nb (sampler : SamplerCall → Tensor) (cfg : Config)
    (d pc i : Nat) (rest : List Nat) (acc : LoopAcc) (modifier : ℚ)
    (L2 : Tensor) (st2 : VizState) (seed2 : Int) (py2 : PyState)
    (hm : cfg.latentMods[i]? = some modifier)
    (hit : iterateLatentByMode acc.latent cfg.latentMode cfg.latentModLimit
      modifier acc.st = (L2, st2))
    (hbr : ¬ (0 < cfg.imageLimit ∧ (i : Int) ≥ cfg.imageLimit - 1))
    (hsp : iterateSeedByMode acc.seed cfg.seedMode st2.py = (seed2, py2))
    (hpr : ¬ (1 < pc ∧ i + 1 < d)) :
    processLoop sampler cfg d pc (i :: rest) acc =
      processLoop sampler cfg d pc rest
        { acc with
          latent := L2, seed := seed2,
          st := { st2 with py := py2 },
          traj := acc.traj.set i (tmean L2),
          frames := acc.frames ++ [sampler (mkCall acc L2)],
          calls := acc.calls ++ [mkCall acc L2] } := by
  simp only [processLoop, hm, hit, if_neg hbr, hsp, if_neg hpr, mkCall]

/-- Equation: one loop iteration at index `i` with no break and a prompt
advance to `prompts[i+1]` (lines 187-195). -/
theorem processLoop_cons_adv (sampler : SamplerCall → Tensor) (cfg : Config)
    (d pc i : Nat) (rest : List Nat) (acc : LoopAcc) (modifier : ℚ)
    (L2 : Tensor) (st2 : VizState) (seed2 : Int) (py2 : PyState)
    (p : MbmPrompt)
    (hm : cfg.latentMods[i]? = some modifier)
    (hit : iterateLatentByMode acc.latent cfg.latentMode cfg.latentModLimit
      modifier acc.st = (L2, st2))
    (hbr : ¬ (0 < cfg.imageLimit ∧ (i : Int) ≥ cfg.imageLimit - 1))
    (hsp : iterateSeedByMode acc.seed cfg.seedMode st2.py = (seed2, py2))
    (hpr : 1 < pc ∧ i + 1 < d)
    (hpk : cfg.prompts[i + 1]? = some p) :
    processLoop sampler cfg d pc (i :: rest) acc =
      processLoop sampler cfg d pc rest
        { latent := L2,
          promptPos := buildComfyUiPrompt p.positive p.positivePool,
          promptNeg := buildComfyUiPrompt p.negative p.negativePool,
          seed := seed2, st := { st2 with py := py2 },
          frames := acc.frames ++ [sampler (mkCall acc L2)],
          calls := acc.calls ++ [mkCall acc L2],
          traj := acc.traj.set i (tmean L2) } := by
  simp only [processLoop, hm, hit, if_neg hbr, hsp, if_pos hpr, hpk, mkCall]

/-- Equation: a run that passes validation is the loop over
`range(desiredFrames)` from the initial accumulator. -/
theorem process_eq_loop (s : SamplerCall → Tensor) (g : Int → Nat → ℚ)
    (np : NpState) (flag : Bool) (cfg : Config) (p0 : MbmPrompt)
    (hp : cfg.prompts[0]? = some p0)
    (hv : ¬ (cfg.latentMode = .bounce ∧ cfg.latentModLimit ≤ 0))
    (hne : ¬ (cfg.prompts.length = 0)) :
    process s g np flag cfg =
      (processLoop s cfg p0.positive.length cfg.prompts.length
        (List.range p0.positive.length) (initAcc g np flag cfg p0)).map
        mkResult := by
  simp only [process, hp, if_neg hv, if_neg hne]

/-- Evaluation of the one-frame bounce run `cfgB1` from the fresh-instance
flag: the step exceeds the bound, so the run ends with the direction flag
down, for every sampler, generator algorithm and incoming numpy state. -/
theorem run_cfgB1_flag (s : SamplerCall → Tensor) (g : Int → Nat → ℚ)
    (np : NpState) : flagProj (process s g np true cfgB1) = some false := by
  have hit : iterateLatentByMode (initAcc g np true cfgB1 p1).latent
      cfgB1.latentMode cfgB1.latentModLimit 2 (initAcc g np true cfgB1 p1).st =
      ([-1], { isBouncingUp := false,
               py := { stream := g 0, idx := 0 }, np := np }) := by
    show iterateLatentByMode [1] .bounce 2 2
        { isBouncingUp := true, py := { stream := g 0, idx := 0 }, np := np } =
      ([-1], { isBouncingUp := false, py := { stream := g 0, idx := 0 },
               np := np })
    have hres := resolveLatentMode_bounce_out 2 2 (tmean [1])
      { isBouncingUp := true, py := { stream := g 0, idx := 0 }, np := np }
      (by norm_num) (by norm_num [tmean])
    norm_num at hres
    simp only [iterateLatentByMode, hres]
    norm_num [applyFeatToLatent, tmean]
  rw [process_eq_loop s g np true cfgB1 p1 rfl (by norm_num [cfgB1])
        (by simp [cfgB1]),
      show List.range p1.positive.length = [0] from rfl,
      processLoop_cons_nb s cfgB1 p1.positive.length cfgB1.prompts.length 0 []
        (initAcc g np true cfgB1 p1) 2 [-1]
        { isBouncingUp := false, py := { stream := g 0, idx := 0 }, np := np }
        0 { stream := g 0, idx := 0 }
        rfl hit (by norm_num [cfgB1]) rfl (by norm_num [cfgB1, p1]),
      processLoop_nil]
  simp [flagProj, mkResult, Except.map]

/-- Evaluation of the one-frame bounce run `cfgB2` started bouncing up:
the in-bounds candidate keeps the add direction, trajectory `[2]`. -/
theorem run_cfgB2_true (s : SamplerCall → Tensor) (g : Int → Nat → ℚ)
    (np : NpState) : trajProj (process s g np true cfgB2) = some [2] := by
  have hit : iterateLatentByMode (initAcc g np true cfgB2 p1).latent
      cfgB2.latentMode cfgB2.latentModLimit 1 (initAcc g np true cfgB2 p1).st =
      ([2], { isBouncingUp := true,
              py := { stream := g 0, idx := 0 }, np := np }) := by
    show iterateLatentByMode [1] .bounce 3 1
        { isBouncingUp := true, py := { stream := g 0, idx := 0 }, np := np } =
      ([2], { isBouncingUp := true, py := { stream := g 0, idx := 0 },
              np := np })
    have hres := resolveLatentMode_bounce_in 3 1 (tmean [1])
      { isBouncingUp := true, py := { stream := g 0, idx := 0 }, np := np }
      (by norm_num) (by norm_num [tmean])
    norm_num at hres
    simp only [iterateLatentByMode, hres]
    norm_num [applyFeatToLatent, tmean]
  rw [process_eq_loop s g np true cfgB2 p1 rfl (by norm_num [cfgB2])
        (by simp [cfgB2]),
      show List.range p1.positive.length = [0] from rfl,
      processLoop_cons_nb s cfgB2 p1.positive.length cfgB2.prompts.length 0 []
        (initAcc g np true cfgB2 p1) 1 [2]
        { isBouncingUp := true, py := { stream := g 0, idx := 0 }, np := np }
        0 { stream := g 0, idx := 0 }
        rfl hit (by norm_num [cfgB2]) rfl (by norm_num [cfgB2, p1]),
      processLoop_nil]
  simp [trajProj, mkResult, Except.map, initAcc, p1]
  norm_num [tmean]

/-- Evaluation of the one-frame bounce run `cfgB2` started bouncing down:
the in-bounds candidate keeps the subtract direction, trajectory `[0]`. -/
theorem run_cfgB2_false (s : SamplerCall → Tensor) (g : Int → Nat → ℚ)
    (np : NpState) : trajProj (process s g np false cfgB2) = some [0] := by
  have hit : iterateLatentByMode (initAcc g np false cfgB2 p1).latent
      cfgB2.latentMode cfgB2.latentModLimit 1 (initAcc g np false cfgB2 p1).st =
      ([0], { isBouncingUp := false,
              py := { stream := g 0, idx := 0 }, np := np }) := by
    show iterateLatentByMode [1] .bounce 3 1
        { isBouncingUp := false, py := { stream := g 0, idx := 0 }, np := np } =
      ([0], { isBouncingUp := false, py := { stream := g 0, idx := 0 },
              np := np })
    have hres := resolveLatentMode_bounce_in 3 1 (tmean [1])
      { isBouncingUp := false, py := { stream := g 0, idx := 0 }, np := np }
      (by norm_num) (by norm_num [tmean])
    norm_num at hres
    simp only [iterateLatentByMode, hres]
    norm_num [applyFeatToLatent, tmean]
  rw [process_eq_loop s g np false cfgB2 p1 rfl (by norm_num [cfgB2])
        (by simp [cfgB2]),
      show List.range p1.positive.length = [0] from rfl,
      processLoop_cons_nb s cfgB2 p1.positive.length cfgB2.prompts.length 0 []
        (initAcc g np false cfgB2 p1) 1 [0]
        { isBouncingUp := false, py := { stream := g 0, idx := 0 }, np := np }
        0 { stream := g 0, idx := 0 }
        rfl hit (by norm_num [cfgB2]) rfl (by norm_num [cfgB2, p1]),
      processLoop_nil]
  simp [trajProj, mkResult, Except.map, initAcc, p1]
  norm_num [tmean]

/-- Evaluation of the one-frame `guassian` run `cfgG`: the produced frame
is read off the incoming numpy module-level stream, which the run never
seeds. -/
theorem run_cfgG (np : NpState) :
    framesProj (process s0 g0 np true cfgG) =
      some [[3 + 5 / 2 * np.stream np.idx]] := by
  have hit : iterateLatentByMode (initAcc g0 np true cfgG p1).latent
      cfgG.latentMode cfgG.latentModLimit 0 (initAcc g0 np true cfgG p1).st =
      ((createLatent np 1).1,
       { isBouncingUp := true, py := { stream := g0 0, idx := 0 },
         np := (createLatent np 1).2 }) := by
    show iterateLatentByMode [0] .gauss 5 0
        { isBouncingUp := true, py := { stream := g0 0, idx := 0 }, np := np } =
      ((createLatent np 1).1,
       { isBouncingUp := true, py := { stream := g0 0, idx := 0 },
         np := (createLatent np 1).2 })
    exact iterateLatentByMode_gauss [0] 5 0 _
  rw [process_eq_loop s0 g0 np true cfgG p1 rfl (by norm_num [cfgG])
        (by simp [cfgG]),
      show List.range p1.positive.length = [0] from rfl,
      processLoop_cons_nb s0 cfgG p1.positive.length cfgG.prompts.length 0 []
        (initAcc g0 np true cfgG p1) 0 (createLatent np 1).1
        { isBouncingUp := true, py := { stream := g0 0, idx := 0 },
          np := (createLatent np 1).2 }
        0 { stream := g0 0, idx := 0 }
        rfl hit (by norm_num [cfgG]) rfl (by norm_num [cfgG, p1]),
      processLoop_nil]
  simp [framesProj, mkResult, Except.map, s0, mkCall, createLatent, initAcc,
    show List.range 1 = [0] from rfl]

/-- C3 (evaluation at the failing input): in `guassian` latent mode two
runs of `process` with identical inputs and the same seed produce
different output stacks when the incoming numpy module-level generator
state differs — which it does between two successive runs, because line
108 (`np.random.default_rng(seed)`) discards the generator it builds and
never seeds the module-level state that `np.random.normal` (line 295)
draws from. -/
theorem C3_gauss_nondeterminism :
    framesProj (process s0 g0 np0 true cfgG) ≠
      framesProj (process s0 g0 np1 true cfgG) := by
  rw [run_cfgG np0, run_cfgG np1]
  simp [np0, np1]

/-- C5 counterexample: a fresh visualizer starts with the flag up, but the
single-frame bounce run `cfgB1` (mean 1, modifier 2, limit 2) ends with
`self.__isBouncingUp = False`, and `process` never resets the flag, so the
next run on the same instance starts bouncing down — observably: the
direction-sensitive run `cfgB2` yields a different trajectory when started
with the persisted flag than when started bouncing up. -/
theorem C5_counterexample :
    initIsBouncingUp = true ∧
    flagProj (process s0 g0 np0 initIsBouncingUp cfgB1) = some false ∧
    trajProj (process s0 g0 np0 false cfgB2) ≠
      trajProj (process s0 g0 np0 true cfgB2) := by
  refine ⟨rfl, run_cfgB1_flag s0 g0 np0, ?_⟩
  rw [run_cfgB2_false s0 g0 np0, run_cfgB2_true s0 g0 np0]
  norm_num

/-- C5 (amended): the bounce direction flag is initialized to "bouncing
up" once, at construction (line 61), not at the start of each run;
`process` never resets it, so the final flag value of one run is the
initial flag value of the next run on the same instance.  Concretely, for
every sampler, stdlib-generator algorithm and incoming numpy state, the
run `cfgB1` started from the fresh-instance flag leaves the flag down, and
a subsequent direction-sensitive run `cfgB2` then produces trajectory
`[0]` where a run that began bouncing up would produce `[2]`. -/
theorem C5_flag_persistence (s : SamplerCall → Tensor) (g : Int → Nat → ℚ)
    (np : NpState) :
    initIsBouncingUp = true ∧
    flagProj (process s g np initIsBouncingUp cfgB1) = some false ∧
    trajProj (process s g np false cfgB2) = some [0] ∧
    trajProj (process s g np true cfgB2) = some [2] :=
  ⟨rfl, run_cfgB1_flag s g np, run_cfgB2_false s g np, run_cfgB2_true s g np⟩

/-- C6 (evaluation at the failing input): with an empty prompt sequence,
`process` raises IndexError from `prompts[0]` at line 111 — before the
`len(prompts) == 0` validation at lines 120-121 can run — so the promised
ValueError("At least one prompt is required.") is never raised.  No frame
is processed and the sampler is never invoked (the error precedes the
generation loop). -/
theorem C6_empty_prompts_index_error :
    process s0 g0 np0 true cfgE = .error .indexError ∧
    process s0 g0 np0 true cfgE ≠
      .error (.valueError "At least one prompt is required.") := by
  constructor
  · rfl
  · rw [show process s0 g0 np0 true cfgE = .error .indexError from rfl]
    simp

/-- C7: with a non-empty prompt sequence, bounce latent mode and a
non-positive latent mod limit, `process` raises the validation ValueError
before the generation loop starts (lines 116-117), so no sampler
invocation and no partial work happens. -/
theorem C7_bounce_validation (s : SamplerCall → Tensor) (g : Int → Nat → ℚ)
    (np : NpState) (flag : Bool) (cfg : Config)
    (h1 : cfg.prompts ≠ []) (h2 : cfg.latentMode = .bounce)
    (h3 : cfg.latentModLimit ≤ 0) :
    process s g np flag cfg =
      .error (.valueError
        "Latent Mod Limit must be set to `>0` when using the `bounce` Latent Mode") := by
  obtain ⟨p, ps, hp⟩ := List.exists_cons_of_ne_nil h1
  unfold process
  rw [hp]
  simp [h2, h3]

/-- Closed witness for C7: bounce mode with limit 0 is rejected. -/
theorem C7_bounce_validation_witness :
    process s0 g0 np0 true cfgB0 =
      .error (.valueError
        "Latent Mod Limit must be set to `>0` when using the `bounce` Latent Mode") :=
  C7_bounce_validation s0 g0 np0 true cfgB0 (by decide) rfl (by decide)

/-- `List.set` at one index leaves `getD` at any other index unchanged. -/
theorem getD_set_ne {α : Type} (l : List α) (i j : Nat) (x : α) (dflt : α)
    (h : j ≠ i) : (l.set i x).getD j dflt = l.getD j dflt := by
  simp [List.getD_eq_getElem?_getD, List.getElem?_set_ne (Ne.symm h)]

/-- `getD` just past a list reads the appended element. -/
theorem getD_append_last {α : Type} (l : List α) (c : α) (dflt : α) :
    (l ++ [c]).getD l.length dflt = c := by
  rw [List.getD_append_right _ _ _ _ (Nat.le_refl _), Nat.sub_self]
  rfl

/-- Bookkeeping facts about a completed run of the generation loop: the
trajectory array never changes length, the recorded calls and stacked
frames grow by exactly the number of produced frames, trajectory entries
at indices outside the processed list are untouched, and previously
recorded calls are never rewritten. -/
theorem processLoop_ok_spec (sampler : SamplerCall → Tensor) (cfg : Config)
    (d pc : Nat) (is : List Nat) :
    ∀ (acc acc' : LoopAcc),
      processLoop sampler cfg d pc is acc = .ok acc' →
      acc'.traj.length = acc.traj.length ∧
      acc'.calls.length = acc.calls.length + framesFromList cfg.imageLimit is ∧
      acc'.frames.length = acc.frames.length + framesFromList cfg.imageLimit is ∧
      (∀ j, j ∉ is → acc'.traj.getD j 0 = acc.traj.getD j 0) ∧
      (∀ j, j < acc.calls.length →
        acc'.calls.getD j dummyCall = acc.calls.getD j dummyCall) := by
  induction is with
  | nil =>
    intro acc acc' h
    simp only [processLoop] at h
    cases h
    exact ⟨rfl, by simp [framesFromList], by simp [framesFromList],
      fun j _ => rfl, fun j _ => rfl⟩
  | cons i rest ih =>
    intro acc acc' h
    simp only [processLoop] at h
    cases hm : cfg.latentMods[i]? with
    | none => simp [hm] at h
    | some m =>
      simp only [hm] at h
      by_cases hbr : 0 < cfg.imageLimit ∧ (i : Int) ≥ cfg.imageLimit - 1
      · rw [if_pos hbr] at h
        cases h
        have hflb : framesFromList cfg.imageLimit (i :: rest) = 1 := by
          simp only [framesFromList, if_pos hbr]
        refine ⟨by simp, ?_, ?_, ?_, ?_⟩
        · rw [hflb]; simp
        · rw [hflb]; simp
        · intro j hj
          simp only [List.mem_cons, not_or] at hj
          simpa using getD_set_ne _ _ _ _ _ hj.1
        · intro j hj
          simpa using List.getD_append _ _ _ _ hj
      · rw [if_neg hbr] at h
        have hfl : framesFromList cfg.imageLimit (i :: rest) =
            1 + framesFromList cfg.imageLimit rest := by
          simp only [framesFromList, if_neg hbr]
        by_cases hpr : 1 < pc ∧ i + 1 < d
        · rw [if_pos hpr] at h
          cases hpk : cfg.prompts[i + 1]? with
          | none => simp [hpk] at h
          | some p =>
            simp only [hpk] at h
            obtain ⟨ih1, ih2, ih3, ih4, ih5⟩ := ih _ _ h
            refine ⟨?_, ?_, ?_, ?_, ?_⟩
            · simpa using ih1
            · simp only [hfl]
              simp at ih2
              omega
            · simp only [hfl]
              simp at ih3
              omega
            · intro j hj
              simp only [List.mem_cons, not_or] at hj
              rw [ih4 j hj.2]
              simpa using getD_set_ne _ _ _ _ _ hj.1
            · intro j hj
              have hj2 : j < acc.calls.length + 1 := Nat.lt_succ_of_lt hj
              have := ih5 j (by simpa using hj2)
              rw [this]
              simpa using List.getD_append _ _ _ _ hj
        · rw [if_neg hpr] at h
          obtain ⟨ih1, ih2, ih3, ih4, ih5⟩ := ih _ _ h
          refine ⟨?_, ?_, ?_, ?_, ?_⟩
          · simpa using ih1
          · simp only [hfl]
            simp at ih2
            omega
          · simp only [hfl]
            simp at ih3
            omega
          · intro j hj
            simp only [List.mem_cons, not_or] at hj
            rw [ih4 j hj.2]
            simpa using getD_set_ne _ _ _ _ _ hj.1
          · intro j hj
            have hj2 : j < acc.calls.length + 1 := Nat.lt_succ_of_lt hj
            have := ih5 j (by simpa using hj2)
            rw [this]
            simpa using List.getD_append _ _ _ _ hj

/-- `List.set` at an in-range index is read back by `getD`. -/
theorem getD_set_self {α : Type} (l : List α) (i : Nat) (x : α) (dflt : α)
    (h : i < l.length) : (l.set i x).getD i dflt = x := by
  rw [List.getD_eq_getElem?_getD, List.getElem?_set_eq_of_lt x h]
  rfl

/-- With a non-positive image limit the loop produces one frame per index
(line 180 never breaks). -/
theorem framesFromList_nonpos (limit : Int) (hl : limit ≤ 0) (is : List Nat) :
    framesFromList limit is = is.length := by
  induction is with
  | nil => rfl
  | cons i rest ih =>
    rw [framesFromList, if_neg (by rintro ⟨h1, _⟩; omega), ih]
    simp [Nat.add_comm]

/-- Closed form of the produced-frame count over a contiguous index range
when the image limit is positive. -/
theorem framesFromList_range' (limit : Int) (hl : 0 < limit) :
    ∀ (n a : Nat), (a : Int) < limit →
      framesFromList limit (List.range' a n) = min n (limit.toNat - a) := by
  intro n
  induction n with
  | zero => intro a ha; simp [framesFromList]
  | succ n ih =>
    intro a ha
    rw [List.range'_succ a n 1, framesFromList]
    by_cases hc : 0 < limit ∧ (a : Int) ≥ limit - 1
    · rw [if_pos hc]
      omega
    · rw [if_neg hc, ih (a + 1) (by omega)]
      omega

/-- Over a contiguous index range that reaches the limit, the line-180
break fires. -/
theorem breakFires_range' (limit : Int) (hl : 0 < limit) :
    ∀ (n a : Nat), 0 < n → limit ≤ (a : Int) + n →
      breakFires limit (List.range' a n) = true := by
  intro n
  induction n with
  | zero => omega
  | succ n ih =>
    intro a _ hle
    rw [List.range'_succ a n 1, breakFires]
    by_cases hc : 0 < limit ∧ (a : Int) ≥ limit - 1
    · rw [if_pos hc]
    · rw [if_neg hc]
      exact ih (a + 1) (by omega) (by push_cast at hle ⊢; omega)

/-- When the line-180 break fires, the loop ends immediately after a
produced frame: the last recorded sampler call was issued with the final
value of the seed, i.e. no seed advance happened after the final retained
frame. -/
theorem processLoop_ok_break_seed (sampler : SamplerCall → Tensor)
    (cfg : Config) (d pc : Nat) (is : List Nat) :
    ∀ (acc acc' : LoopAcc),
      processLoop sampler cfg d pc is acc = .ok acc' →
      breakFires cfg.imageLimit is = true →
      acc'.calls ≠ [] ∧ (acc'.calls.getLastD dummyCall).seed = acc'.seed := by
  induction is with
  | nil => intro acc acc' h hb; simp [breakFires] at hb
  | cons i rest ih =>
    intro acc acc' h hb
    simp only [processLoop] at h
    cases hm : cfg.latentMods[i]? with
    | none => simp [hm] at h
    | some m =>
      simp only [hm] at h
      by_cases hbr : 0 < cfg.imageLimit ∧ (i : Int) ≥ cfg.imageLimit - 1
      · rw [if_pos hbr] at h
        cases h
        constructor
        · simp
        · simp [List.getLastD_concat]
      · rw [if_neg hbr] at h
        have hb' : breakFires cfg.imageLimit rest = true := by
          rw [breakFires, if_neg hbr] at hb
          exact hb
        by_cases hpr : 1 < pc ∧ i + 1 < d
        · rw [if_pos hpr] at h
          cases hpk : cfg.prompts[i + 1]? with
          | none => simp [hpk] at h
          | some p =>
            simp only [hpk] at h
            exact ih _ _ h hb'
        · rw [if_neg hpr] at h
          exact ih _ _ h hb'

/-- Trajectory entries at or beyond the produced-frame window are left
exactly as they were (the break truncates the writes). -/
theorem processLoop_traj_untouched_high (sampler : SamplerCall → Tensor)
    (cfg : Config) (d pc : Nat) :
    ∀ (n a : Nat) (acc acc' : LoopAcc),
      processLoop sampler cfg d pc (List.range' a n) acc = .ok acc' →
      ∀ j, a + framesFromList cfg.imageLimit (List.range' a n) ≤ j →
        acc'.traj.getD j 0 = acc.traj.getD j 0 := by
  intro n
  induction n with
  | zero =>
    intro a acc acc' h j _
    simp only [List.range'] at h
    simp only [processLoop] at h
    cases h
    rfl
  | succ n ih =>
    intro a acc acc' h j hj
    rw [List.range'_succ a n 1] at h
    rw [List.range'_succ a n 1] at hj
    simp only [processLoop] at h
    cases hm : cfg.latentMods[a]? with
    | none => simp [hm] at h
    | some m =>
      simp only [hm] at h
      by_cases hbr : 0 < cfg.imageLimit ∧ (a : Int) ≥ cfg.imageLimit - 1
      · rw [if_pos hbr] at h
        cases h
        rw [framesFromList, if_pos hbr] at hj
        simpa using getD_set_ne _ _ _ _ _ (by omega)
      · rw [if_neg hbr] at h
        rw [framesFromList, if_neg hbr] at hj
        have hj' : a + 1 + framesFromList cfg.imageLimit (List.range' (a + 1) n) ≤ j := by
          omega
        by_cases hpr : 1 < pc ∧ a + 1 < d
        · rw [if_pos hpr] at h
          cases hpk : cfg.prompts[a + 1]? with
          | none => simp [hpk] at h
          | some p =>
            simp only [hpk] at h
            rw [ih (a + 1) _ _ h j hj']
            simpa using getD_set_ne _ _ _ _ _ (by omega)
        · rw [if_neg hpr] at h
          rw [ih (a + 1) _ _ h j hj']
          simpa using getD_set_ne _ _ _ _ _ (by omega)

/-- Each produced frame records in the trajectory exactly the mean of the
latent it sent to the sampler. -/
theorem processLoop_traj_calls (sampler : SamplerCall → Tensor)
    (cfg : Config) (d pc : Nat) :
    ∀ (n a : Nat) (acc acc' : LoopAcc),
      processLoop sampler cfg d pc (List.range' a n) acc = .ok acc' →
      acc.traj.length = d → a + n ≤ d →
      ∀ k, k < acc'.calls.length - acc.calls.length →
        acc'.traj.getD (a + k) 0 =
          tmean ((acc'.calls.getD (acc.calls.length + k) dummyCall).latent) := by
  intro n
  induction n with
  | zero =>
    intro a acc acc' h _ _ k hk
    simp only [List.range'] at h
    simp only [processLoop] at h
    cases h
    omega
  | succ n ih =>
    intro a acc acc' h htl had k hk
    rw [List.range'_succ a n 1] at h
    simp only [processLoop] at h
    cases hm : cfg.latentMods[a]? with
    | none => simp [hm] at h
    | some m =>
      simp only [hm] at h
      by_cases hbr : 0 < cfg.imageLimit ∧ (a : Int) ≥ cfg.imageLimit - 1
      · rw [if_pos hbr] at h
        cases h
        simp only [List.length_append, List.length_cons, List.length_nil] at hk
        have hk0 : k = 0 := by omega
        subst hk0
        simp only [Nat.add_zero]
        rw [getD_set_self _ _ _ _ (by omega), getD_append_last]
      · rw [if_neg hbr] at h
        by_cases hpr : 1 < pc ∧ a + 1 < d
        · rw [if_pos hpr] at h
          cases hpk : cfg.prompts[a + 1]? with
          | none => simp [hpk] at h
          | some p =>
            simp only [hpk] at h
            obtain ⟨sp1, sp2, sp3, sp4, sp5⟩ :=
              processLoop_ok_spec sampler cfg d pc _ _ _ h
            cases k with
            | zero =>
              rw [Nat.add_zero, Nat.add_zero,
                sp4 a (by simp only [List.mem_range'_1]; omega)]
              have hlt : acc.calls.length <
                  (acc.calls ++ [mkCall acc ((iterateLatentByMode acc.latent
                    cfg.latentMode cfg.latentModLimit m acc.st).1)]).length := by
                simp
              rw [sp5 acc.calls.length (by simp)]
              simp only [mkCall] at hlt ⊢
              rw [getD_set_self _ _ _ _ (by simp [htl]; omega), getD_append_last]
            | succ k' =>
              have := ih (a + 1) _ _ h (by simpa using htl) (by omega) k'
                (by simp at hk ⊢; omega)
              simp only [List.length_append, List.length_cons,
                List.length_nil] at this
              rw [show a + (k' + 1) = a + 1 + k' from by omega,
                show acc.calls.length + (k' + 1) =
                  acc.calls.length + 1 + k' from by omega]
              exact this
        · rw [if_neg hpr] at h
          obtain ⟨sp1, sp2, sp3, sp4, sp5⟩ :=
            processLoop_ok_spec sampler cfg d pc _ _ _ h
          cases k with
          | zero =>
            rw [Nat.add_zero, Nat.add_zero,
              sp4 a (by simp only [List.mem_range'_1]; omega)]
            have hlt : acc.calls.length <
                (acc.calls ++ [mkCall acc ((iterateLatentByMode acc.latent
                  cfg.latentMode cfg.latentModLimit m acc.st).1)]).length := by
              simp
            rw [sp5 acc.calls.length (by simp)]
            simp only [mkCall] at hlt ⊢
            rw [getD_set_self _ _ _ _ (by simp [htl]; omega), getD_append_last]
          | succ k' =>
            have := ih (a + 1) _ _ h (by simpa using htl) (by omega) k'
              (by simp at hk ⊢; omega)
            simp only [List.length_append, List.length_cons,
              List.length_nil] at this
            rw [show a + (k' + 1) = a + 1 + k' from by omega,
              show acc.calls.length + (k' + 1) =
                acc.calls.length + 1 + k' from by omega]
            exact this

/-- In static mode the loop never changes the working latent, and every
call it records carries that same latent. -/
theorem processLoop_ok_static (sampler : SamplerCall → Tensor) (cfg : Config)
    (d pc : Nat) (hmode : cfg.latentMode = .static) (is : List Nat) :
    ∀ (acc acc' : LoopAcc),
      processLoop sampler cfg d pc is acc = .ok acc' →
      acc'.latent = acc.latent ∧
      (∀ j, acc.calls.length ≤ j → j < acc'.calls.length →
        (acc'.calls.getD j dummyCall).latent = acc.latent) := by
  induction is with
  | nil =>
    intro acc acc' h
    simp only [processLoop] at h
    cases h
    exact ⟨rfl, fun j h1 h2 => absurd h2 (by omega)⟩
  | cons i rest ih =>
    intro acc acc' h
    simp only [processLoop, hmode, iterateLatentByMode_static] at h
    cases hm : cfg.latentMods[i]? with
    | none => simp [hm] at h
    | some m =>
      simp only [hm] at h
      by_cases hbr : 0 < cfg.imageLimit ∧ (i : Int) ≥ cfg.imageLimit - 1
      · rw [if_pos hbr] at h
        cases h
        refine ⟨rfl, fun j h1 h2 => ?_⟩
        simp only [List.length_append, List.length_cons, List.length_nil] at h2
        have hj : j = acc.calls.length := by omega
        subst hj
        rw [getD_append_last]
      · rw [if_neg hbr] at h
        by_cases hpr : 1 < pc ∧ i + 1 < d
        · rw [if_pos hpr] at h
          cases hpk : cfg.prompts[i + 1]? with
          | none => simp [hpk] at h
          | some p =>
            simp only [hpk] at h
            obtain ⟨ihl, ihc⟩ := ih _ _ h
            simp only at ihl ihc
            refine ⟨ihl, fun j h1 h2 => ?_⟩
            rcases Nat.lt_or_ge j (acc.calls.length + 1) with hj | hj
            · obtain ⟨_, _, _, _, sp5⟩ :=
                processLoop_ok_spec sampler cfg d pc _ _ _ h
              have hj' : j = acc.calls.length := by omega
              subst hj'
              rw [sp5 acc.calls.length (by simp)]
              rw [getD_append_last]
            · have := ihc j (by simpa using hj) h2
              rw [this]
        · rw [if_neg hpr] at h
          obtain ⟨ihl, ihc⟩ := ih _ _ h
          simp only at ihl ihc
          refine ⟨ihl, fun j h1 h2 => ?_⟩
          rcases Nat.lt_or_ge j (acc.calls.length + 1) with hj | hj
          · obtain ⟨_, _, _, _, sp5⟩ :=
              processLoop_ok_spec sampler cfg d pc _ _ _ h
            have hj' : j = acc.calls.length := by omega
            subst hj'
            rw [sp5 acc.calls.length (by simp)]
            rw [getD_append_last]
          · have := ihc j (by simpa using hj) h2
            rw [this]

/-- Inversion of a successful run: there is a first prompt, the loop over
the index range succeeded, and the result is its projection. -/
theorem process_ok_inv (s : SamplerCall → Tensor) (g : Int → Nat → ℚ)
    (np : NpState) (flag : Bool) (cfg : Config) (r : ProcessResult)
    (hok : process s g np flag cfg = .ok r) :
    ∃ p0 a, cfg.prompts[0]? = some p0 ∧
      processLoop s cfg p0.positive.length cfg.prompts.length
        (List.range p0.positive.length) (initAcc g np flag cfg p0) = .ok a ∧
      r = mkResult a ∧ desiredFramesOf cfg = p0.positive.length := by
  unfold process at hok
  cases hp : cfg.prompts[0]? with
  | none => simp [hp] at hok
  | some p0 =>
    simp only [hp] at hok
    by_cases hv : cfg.latentMode = .bounce ∧ cfg.latentModLimit ≤ 0
    · rw [if_pos hv] at hok
      exact absurd hok (by simp)
    · rw [if_neg hv] at hok
      by_cases hne : cfg.prompts.length = 0
      · rw [if_pos hne] at hok
        exact absurd hok (by simp)
      · rw [if_neg hne] at hok
        cases hl : processLoop s cfg p0.positive.length cfg.prompts.length
            (List.range p0.positive.length) (initAcc g np flag cfg p0) with
        | error e => rw [hl] at hok; exact absurd hok (by simp [Except.map])
        | ok a =>
          rw [hl] at hok
          simp only [Except.map] at hok
          refine ⟨p0, a, rfl, hl, by
            cases hok
            rfl, ?_⟩
          cases hcp : cfg.prompts with
          | nil => rw [hcp] at hp; simp at hp
          | cons q qs =>
            rw [hcp] at hp
            simp only [List.getElem?_cons_zero, Option.some.injEq] at hp
            simp [desiredFramesOf, hcp, hp]

/-- Reading anywhere in the zero-initialized means array gives zero. -/
theorem getD_replicate (n j : Nat) :
    (List.replicate n (0 : ℚ)).getD j 0 = 0 := by
  rw [List.getD_eq_getElem?_getD, List.getElem?_getD_replicate_default_eq]

/-- C4: the number of frames produced (sampler invocations and stacked
output slices) equals the length of the first prompt frame's positive
sequence when `image_limit ≤ 0`, and the minimum of that length and
`image_limit` when `image_limit > 0`; when a positive image limit stops
the loop, the final retained frame is also the last: the seed is not
advanced after it (the last sampler call carries the final seed value). -/
theorem C4_frame_count (s : SamplerCall → Tensor) (g : Int → Nat → ℚ)
    (np : NpState) (flag : Bool) (cfg : Config) (r : ProcessResult)
    (hok : process s g np flag cfg = .ok r) :
    (cfg.imageLimit ≤ 0 →
      r.samplerCalls.length = desiredFramesOf cfg ∧
      r.frames.length = desiredFramesOf cfg) ∧
    (0 < cfg.imageLimit →
      r.samplerCalls.length = min (desiredFramesOf cfg) cfg.imageLimit.toNat ∧
      r.frames.length = min (desiredFramesOf cfg) cfg.imageLimit.toNat) ∧
    (0 < cfg.imageLimit → cfg.imageLimit.toNat ≤ desiredFramesOf cfg →
      r.samplerCalls ≠ [] ∧
      (r.samplerCalls.getLastD dummyCall).seed = r.finalSeed) := by
  obtain ⟨p0, a, hp, hl, hr, hd⟩ := process_ok_inv s g np flag cfg r hok
  obtain ⟨sp1, sp2, sp3, sp4, sp5⟩ :=
    processLoop_ok_spec s cfg p0.positive.length cfg.prompts.length _ _ _ hl
  simp only [initAcc, List.length_nil, Nat.zero_add] at sp2 sp3
  subst hr
  rw [hd]
  refine ⟨fun hnp => ?_, fun hpos => ?_, fun hpos hle => ?_⟩
  · rw [framesFromList_nonpos cfg.imageLimit hnp, List.length_range] at sp2 sp3
    exact ⟨by simpa [mkResult] using sp2, by simpa [mkResult] using sp3⟩
  · rw [List.range_eq_range' p0.positive.length,
      framesFromList_range' cfg.imageLimit hpos p0.positive.length 0
        (by exact_mod_cast hpos), Nat.sub_zero] at sp2 sp3
    exact ⟨by simpa [mkResult] using sp2, by simpa [mkResult] using sp3⟩
  · have hb : breakFires cfg.imageLimit (List.range p0.positive.length) = true := by
      rw [List.range_eq_range' p0.positive.length]
      exact breakFires_range' cfg.imageLimit hpos p0.positive.length 0
        (by omega) (by push_cast; omega)
    obtain ⟨hne, hseed⟩ :=
      processLoop_ok_break_seed s cfg p0.positive.length cfg.prompts.length
        _ _ _ hl hb
    exact ⟨by simpa [mkResult] using hne, by simpa [mkResult] using hseed⟩

/-- C10: the `latentTensorMeans` array handed to the chart renderer always
has length `desiredFrames` regardless of `image_limit`; it is
pre-allocated as zeros and entry `i` is set to the mean of the frame-`i`
latent only for frames actually produced, so when `image_limit` truncates
the run the entries for unproduced frames remain `0.0` in the rendered
chart. -/
theorem C10_trajectory_padding (s : SamplerCall → Tensor) (g : Int → Nat → ℚ)
    (np : NpState) (flag : Bool) (cfg : Config) (r : ProcessResult)
    (hok : process s g np flag cfg = .ok r) :
    r.trajectory.length = desiredFramesOf cfg ∧
    (∀ j, r.samplerCalls.length ≤ j → r.trajectory.getD j 0 = 0) ∧
    (∀ j, j < r.samplerCalls.length →
      r.trajectory.getD j 0 =
        tmean ((r.samplerCalls.getD j dummyCall).latent)) := by
  obtain ⟨p0, a, hp, hl, hr, hd⟩ := process_ok_inv s g np flag cfg r hok
  obtain ⟨sp1, sp2, sp3, sp4, sp5⟩ :=
    processLoop_ok_spec s cfg p0.positive.length cfg.prompts.length _ _ _ hl
  simp only [initAcc, List.length_nil, Nat.zero_add, List.length_replicate]
    at sp1 sp2
  subst hr
  rw [hd]
  have hl' := hl
  rw [List.range_eq_range' p0.positive.length] at hl'
  refine ⟨by simpa [mkResult] using sp1, fun j hj => ?_, fun j hj => ?_⟩
  · simp only [mkResult] at hj ⊢
    rcases Nat.lt_or_ge j p0.positive.length with hjd | hjd
    · have hu := processLoop_traj_untouched_high s cfg p0.positive.length
        cfg.prompts.length p0.positive.length 0 _ _ hl' j
        (by rw [← List.range_eq_range' p0.positive.length]; omega)
      rw [hu]
      simp only [initAcc]
      exact getD_replicate _ _
    · rw [List.getD_eq_default _ _ (by omega)]
  · simp only [mkResult] at hj ⊢
    have hc := processLoop_traj_calls s cfg p0.positive.length
      cfg.prompts.length p0.positive.length 0 _ _ hl'
      (by simp [initAcc]) (by omega) j (by simpa [initAcc] using hj)
    simpa [initAcc] using hc

/-- C8: in `static` latent mode every latent-recurrence step returns its
input latent unchanged (ignoring the modifier), the latent passed to the
sampler at every produced frame equals the input starting latent, and
every recorded trajectory entry equals the mean of the starting latent. -/
theorem C8_static_identity (s : SamplerCall → Tensor) (g : Int → Nat → ℚ)
    (np : NpState) (flag : Bool) (cfg : Config) (r : ProcessResult)
    (hmode : cfg.latentMode = .static)
    (hok : process s g np flag cfg = .ok r) :
    (∀ (l : Tensor) (lim mo : ℚ) (st : VizState),
      iterateLatentByMode l .static lim mo st = (l, st)) ∧
    (∀ j, j < r.samplerCalls.length →
      (r.samplerCalls.getD j dummyCall).latent = cfg.latentSamples) ∧
    (∀ j, j < r.samplerCalls.length →
      r.trajectory.getD j 0 = tmean cfg.latentSamples) := by
  obtain ⟨p0, a, hp, hl, hr, hd⟩ := process_ok_inv s g np flag cfg r hok
  obtain ⟨hst, hcl⟩ := processLoop_ok_static s cfg p0.positive.length
    cfg.prompts.length hmode _ _ _ hl
  have hl' := hl
  rw [List.range_eq_range' p0.positive.length] at hl'
  subst hr
  have hlat : ∀ j, j < a.calls.length →
      (a.calls.getD j dummyCall).latent = cfg.latentSamples := by
    intro j hj
    have := hcl j (by simp [initAcc]) (by simpa [initAcc] using hj)
    simpa [initAcc] using this
  refine ⟨fun l lim mo st => iterateLatentByMode_static l lim mo st,
    fun j hj => ?_, fun j hj => ?_⟩
  · simp only [mkResult] at hj ⊢
    exact hlat j hj
  · simp only [mkResult] at hj ⊢
    have hc := processLoop_traj_calls s cfg p0.positive.length
      cfg.prompts.length p0.positive.length 0 _ _ hl'
      (by simp [initAcc]) (by omega) j (by simpa [initAcc] using hj)
    simp only [initAcc, List.length_nil, Nat.zero_add] at hc
    rw [hc, hlat j hj]

/-- The in-place bounded add/subtract only ever writes the cell its
reference points at: any other cell, in particular the caller's tensor at
address 0, is untouched. -/
theorem applyFeatToLatentS_preserves (store : Store) (ref : Nat)
    (method : FeatMethod) (lim mo : ℚ) (h0 : ref ≠ 0)
    (h1 : 1 ≤ store.length) :
    (applyFeatToLatentS store ref method lim mo).1.getD 0 [] =
        store.getD 0 [] ∧
      (applyFeatToLatentS store ref method lim mo).2 ≠ 0 ∧
      1 ≤ (applyFeatToLatentS store ref method lim mo).1.length := by
  cases method <;> simp only [applyFeatToLatentS] <;> split_ifs <;>
    first
      | exact ⟨rfl, h0, h1⟩
      | exact ⟨getD_set_ne _ _ _ _ _ (Ne.symm h0), h0, by
          rw [List.length_set]; exact h1⟩

/-- A latent step never writes the cell at address 0: it either leaves the
store alone, overwrites the working cell, or allocates a fresh cell. -/
theorem iterateLatentByModeS_preserves (store : Store) (ref : Nat)
    (mode : LatentMode) (lim mo : ℚ) (st : VizState) (h0 : ref ≠ 0)
    (h1 : 1 ≤ store.length) :
    (iterateLatentByModeS store ref mode lim mo st).1.1.getD 0 [] =
        store.getD 0 [] ∧
      (iterateLatentByModeS store ref mode lim mo st).1.2 ≠ 0 ∧
      1 ≤ (iterateLatentByModeS store ref mode lim mo st).1.1.length := by
  rcases hres : resolveLatentMode mode lim mo (tmean (store.getD ref [])) st
    with ⟨m2, st2⟩
  cases m2 with
  | increase =>
    simp only [iterateLatentByModeS, hres]
    exact applyFeatToLatentS_preserves store ref _ lim mo h0 h1
  | decrease =>
    simp only [iterateLatentByModeS, hres]
    exact applyFeatToLatentS_preserves store ref _ lim mo h0 h1
  | gauss =>
    simp only [iterateLatentByModeS, hres]
    refine ⟨List.getD_append _ _ _ _ (by omega), by omega, ?_⟩
    simp only [List.length_append]
    omega
  | static =>
    simp only [iterateLatentByModeS, hres]
    exact ⟨trivial, h0, h1⟩
  | flow =>
    simp only [iterateLatentByModeS, hres]
    exact ⟨trivial, h0, h1⟩
  | bounce =>
    simp only [iterateLatentByModeS, hres]
    exact ⟨trivial, h0, h1⟩

/-- Store invariant of the generation loop: the cell at address 0 (the
caller's tensor) is never written, and the working reference never points
at it. -/
theorem processLoopS_store_inv (sampler : SamplerCall → Tensor) (cfg : Config)
    (d pc : Nat) (is : List Nat) :
    ∀ (acc acc' : StoreAcc),
      processLoopS sampler cfg d pc is acc = .ok acc' →
      acc.ref ≠ 0 → 1 ≤ acc.store.length →
      acc'.store.getD 0 [] = acc.store.getD 0 [] ∧ acc'.ref ≠ 0 ∧
        1 ≤ acc'.store.length := by
  induction is with
  | nil =>
    intro acc acc' h h0 h1
    simp only [processLoopS] at h
    cases h
    exact ⟨rfl, h0, h1⟩
  | cons i rest ih =>
    intro acc acc' h h0 h1
    simp only [processLoopS] at h
    cases hm : cfg.latentMods[i]? with
    | none => simp [hm] at h
    | some m =>
      simp only [hm] at h
      obtain ⟨k1, k2, k3⟩ := iterateLatentByModeS_preserves acc.store acc.ref
        cfg.latentMode cfg.latentModLimit m acc.st h0 h1
      by_cases hbr : 0 < cfg.imageLimit ∧ (i : Int) ≥ cfg.imageLimit - 1
      · rw [if_pos hbr] at h
        cases h
        exact ⟨k1, k2, k3⟩
      · rw [if_neg hbr] at h
        by_cases hpr : 1 < pc ∧ i + 1 < d
        · rw [if_pos hpr] at h
          cases hpk : cfg.prompts[i + 1]? with
          | none => simp [hpk] at h
          | some p =>
            simp only [hpk] at h
            obtain ⟨j1, j2, j3⟩ := ih _ _ h k2 k3
            exact ⟨j1.trans k1, j2, j3⟩
        · rw [if_neg hpr] at h
          obtain ⟨j1, j2, j3⟩ := ih _ _ h k2 k3
          exact ⟨j1.trans k1, j2, j3⟩

/-- C9: the caller's original starting latent tensor is never mutated:
`process` clones it before the loop (line 137) and all in-place latent
updates hit the clone or freshly allocated tensors, so after a completed
run the caller's cell still holds exactly its original element values. -/
theorem C9_caller_latent_preserved (s : SamplerCall → Tensor)
    (g : Int → Nat → ℚ) (np : NpState) (flag : Bool) (cfg : Config)
    (acc' : StoreAcc) (hok : processS s g np flag cfg = .ok acc') :
    acc'.store.getD 0 [] = cfg.latentSamples := by
  unfold processS at hok
  cases hp : cfg.prompts[0]? with
  | none => simp [hp] at hok
  | some p0 =>
    simp only [hp] at hok
    by_cases hv : cfg.latentMode = .bounce ∧ cfg.latentModLimit ≤ 0
    · rw [if_pos hv] at hok
      exact absurd hok (by simp)
    · rw [if_neg hv] at hok
      by_cases hne : cfg.prompts.length = 0
      · rw [if_pos hne] at hok
        exact absurd hok (by simp)
      · rw [if_neg hne] at hok
        obtain ⟨j1, _, _⟩ := processLoopS_store_inv s cfg p0.positive.length
          cfg.prompts.length (List.range p0.positive.length) _ _ hok
          (by simp) (by simp)
        simpa using j1

/-- The truncation example run (`image_limit = 3`, `desiredFrames = 10`,
three prompt frames) completes — in particular the prompt pointer is
never advanced past index 2, since only three prompts exist — and
produces exactly three sampler calls. -/
theorem run_cfg4_eval :
    ∃ r, process s0 g0 np0 true cfg4 = .ok r ∧ r.samplerCalls.length = 3 := by
  have hloop : ∃ a, processLoop s0 cfg4 p10.positive.length
      cfg4.prompts.length [0, 1, 2, 3, 4, 5, 6, 7, 8, 9]
      (initAcc g0 np0 true cfg4 p10) = .ok a ∧ a.calls.length = 3 := by
    rw [processLoop_cons_adv s0 cfg4 p10.positive.length cfg4.prompts.length
          0 [1, 2, 3, 4, 5, 6, 7, 8, 9] (initAcc g0 np0 true cfg4 p10) 0
          _ _ _ _ p1 rfl (iterateLatentByMode_static _ _ _ _)
          (by norm_num [cfg4]) rfl
          (by constructor <;> norm_num [cfg4, p10]) rfl,
        processLoop_cons_adv s0 cfg4 p10.positive.length cfg4.prompts.length
          1 [2, 3, 4, 5, 6, 7, 8, 9] _ 0
          _ _ _ _ p1 rfl (iterateLatentByMode_static _ _ _ _)
          (by norm_num [cfg4]) rfl
          (by constructor <;> norm_num [cfg4, p10]) rfl,
        processLoop_cons_break s0 cfg4 p10.positive.length cfg4.prompts.length
          2 [3, 4, 5, 6, 7, 8, 9] _ 0
          _ _ rfl (iterateLatentByMode_static _ _ _ _)
          (by norm_num [cfg4])]
    exact ⟨_, rfl, by simp [initAcc]⟩
  obtain ⟨a, hl, hlen⟩ := hloop
  refine ⟨mkResult a, ?_, by simpa [mkResult] using hlen⟩
  rw [process_eq_loop s0 g0 np0 true cfg4 p10 rfl (by norm_num [cfg4])
        (by simp [cfg4]),
      show List.range p10.positive.length = [0, 1, 2, 3, 4, 5, 6, 7, 8, 9]
        from rfl,
      hl]
  rfl

/-- The plain three-frame static run completes with three sampler calls. -/
theorem run_cfg8_eval :
    ∃ r, process s0 g0 np0 true cfg8 = .ok r ∧ r.samplerCalls.length = 3 := by
  have hloop : ∃ a, processLoop s0 cfg8 p3.positive.length
      cfg8.prompts.length [0, 1, 2]
      (initAcc g0 np0 true cfg8 p3) = .ok a ∧ a.calls.length = 3 := by
    rw [processLoop_cons_nb s0 cfg8 p3.positive.length cfg8.prompts.length
          0 [1, 2] (initAcc g0 np0 true cfg8 p3) 5
          _ _ _ _ rfl (iterateLatentByMode_static _ _ _ _)
          (by norm_num [cfg8]) rfl (by norm_num [cfg8, p3]),
        processLoop_cons_nb s0 cfg8 p3.positive.length cfg8.prompts.length
          1 [2] _ 5
          _ _ _ _ rfl (iterateLatentByMode_static _ _ _ _)
          (by norm_num [cfg8]) rfl (by norm_num [cfg8, p3]),
        processLoop_cons_nb s0 cfg8 p3.positive.length cfg8.prompts.length
          2 [] _ 5
          _ _ _ _ rfl (iterateLatentByMode_static _ _ _ _)
          (by norm_num [cfg8]) rfl (by norm_num [cfg8, p3]),
        processLoop_nil]
    exact ⟨_, rfl, by simp [initAcc]⟩
  obtain ⟨a, hl, hlen⟩ := hloop
  refine ⟨mkResult a, ?_, by simpa [mkResult] using hlen⟩
  rw [process_eq_loop s0 g0 np0 true cfg8 p3 rfl (by norm_num [cfg8])
        (by simp [cfg8]),
      show List.range p3.positive.length = [0, 1, 2] from rfl,
      hl]
  rfl

/-- Closed witness for C4, on the spec's own example: `image_limit = 3`
with `desiredFrames = 10` produces exactly 3 frames, and the last sampler
call carries the final seed (no advancement past frame index 2). -/
theorem C4_witness :
    (process s0 g0 np0 true cfg4).map
      (fun r => (r.samplerCalls.length, r.frames.length,
        (r.samplerCalls.getLastD dummyCall).seed - r.finalSeed)) =
      .ok (3, 3, 0) := by
  obtain ⟨r, hok, _⟩ := run_cfg4_eval
  obtain ⟨h1, h2, h3⟩ := C4_frame_count s0 g0 np0 true cfg4 r hok
  obtain ⟨hc, hf⟩ := h2 (by norm_num [cfg4])
  obtain ⟨hne, hseed⟩ := h3 (by norm_num [cfg4]) (by decide)
  rw [hok]
  simp only [Except.map]
  rw [hc, hf, hseed]
  norm_num [cfg4, desiredFramesOf, p10]
  decide

/-- Closed witness for C10: in the truncated example run the chart array
keeps length 10 and entries 5 and 9 stay zero. -/
theorem C10_witness :
    (process s0 g0 np0 true cfg4).map
      (fun r => (r.trajectory.length, r.trajectory.getD 5 0,
        r.trajectory.getD 9 0)) = .ok (10, 0, 0) := by
  obtain ⟨r, hok, hlen⟩ := run_cfg4_eval
  obtain ⟨h1, h2, h3⟩ := C10_trajectory_padding s0 g0 np0 true cfg4 r hok
  rw [hok]
  simp only [Except.map]
  rw [h1, h2 5 (by omega), h2 9 (by omega)]
  norm_num [cfg4, desiredFramesOf, p10]

/-- Closed witness for C8: a static run passes its input latent to every
sampler call and records its mean 3 in the trajectory. -/
theorem C8_witness :
    (process s0 g0 np0 true cfg8).map
      (fun r => ((r.samplerCalls.getD 0 dummyCall).latent,
        (r.samplerCalls.getD 2 dummyCall).latent,
        r.trajectory.getD 0 0)) = .ok ([2, 4], [2, 4], 3) := by
  obtain ⟨r, hok, hlen⟩ := run_cfg8_eval
  obtain ⟨_, hcall, htraj⟩ := C8_static_identity s0 g0 np0 true cfg8 r rfl hok
  rw [hok]
  simp only [Except.map]
  rw [hcall 0 (by omega), hcall 2 (by omega), htraj 0 (by omega)]
  norm_num [cfg8, tmean]

/-- Equation: the store-passing loop on an empty index list. -/
theorem processLoopS_nil (sampler : SamplerCall → Tensor) (cfg : Config)
    (d pc : Nat) (acc : StoreAcc) :
    processLoopS sampler cfg d pc [] acc = .ok acc := rfl

/-- Equation: one store-passing loop iteration with no break and no prompt
advance. -/
theorem processLoopS_cons_nb (sampler : SamplerCall → Tensor) (cfg : Config)
    (d pc i : Nat) (rest : List Nat) (acc : StoreAcc) (modifier : ℚ)
    (store2 : Store) (ref2 : Nat) (st2 : VizState) (seed2 : Int)
    (py2 : PyState)
    (hm : cfg.latentMods[i]? = some modifier)
    (hit : iterateLatentByModeS acc.store acc.ref cfg.latentMode
      cfg.latentModLimit modifier acc.st = ((store2, ref2), st2))
    (hbr : ¬ (0 < cfg.imageLimit ∧ (i : Int) ≥ cfg.imageLimit - 1))
    (hsp : iterateSeedByMode acc.seed cfg.seedMode st2.py = (seed2, py2))
    (hpr : ¬ (1 < pc ∧ i + 1 < d)) :
    processLoopS sampler cfg d pc (i :: rest) acc =
      processLoopS sampler cfg d pc rest
        { acc with
          store := store2, ref := ref2, seed := seed2,
          st := { st2 with py := py2 },
          traj := acc.traj.set i (tmean (store2.getD ref2 [])),
          frames := acc.frames ++ [sampler (mkCallS acc (store2.getD ref2 []))],
          calls := acc.calls ++ [mkCallS acc (store2.getD ref2 [])] } := by
  simp only [processLoopS, hm, hit, if_neg hbr, hsp, if_neg hpr, mkCallS]

/-- Equation: a store-passing run that passes validation is the loop from
the two-cell store (caller tensor at address 0, its clone at address 1). -/
theorem processS_eq_loop (s : SamplerCall → Tensor) (g : Int → Nat → ℚ)
    (np : NpState) (flag : Bool) (cfg : Config) (p0 : MbmPrompt)
    (hp : cfg.prompts[0]? = some p0)
    (hv : ¬ (cfg.latentMode = .bounce ∧ cfg.latentModLimit ≤ 0))
    (hne : ¬ (cfg.prompts.length = 0)) :
    processS s g np flag cfg =
      processLoopS s cfg p0.positive.length cfg.prompts.length
        (List.range p0.positive.length)
        { store := [cfg.latentSamples, cfg.latentSamples], ref := 1,
          promptPos := buildComfyUiPrompt p0.positive p0.positivePool,
          promptNeg := buildComfyUiPrompt p0.negative p0.negativePool,
          seed := cfg.seed,
          st := { isBouncingUp := flag,
                  py := { stream := g cfg.seed, idx := 0 },
                  np := np },
          frames := [], calls := [],
          traj := List.replicate p0.positive.length 0 } := by
  simp only [processS, hp, if_neg hv, if_neg hne]

/-- The store-passing loop completes whenever every index has a modifier
and prompt advancement stays in range. -/
theorem processLoopS_total (sampler : SamplerCall → Tensor) (cfg : Config)
    (d pc : Nat) (is : List Nat) :
    ∀ acc : StoreAcc,
      (∀ i ∈ is, i < cfg.latentMods.length) →
      (∀ i ∈ is, ¬ (1 < pc ∧ i + 1 < d) ∨ i + 1 < cfg.prompts.length) →
      ∃ a, processLoopS sampler cfg d pc is acc = .ok a := by
  induction is with
  | nil => intro acc _ _; exact ⟨acc, rfl⟩
  | cons i rest ih =>
    intro acc hm hp
    have hmi : i < cfg.latentMods.length := hm i (by simp)
    obtain ⟨m, hmv⟩ : ∃ m, cfg.latentMods[i]? = some m :=
      ⟨cfg.latentMods[i], List.getElem?_eq_getElem hmi⟩
    simp only [processLoopS, hmv]
    by_cases hbr : 0 < cfg.imageLimit ∧ (i : Int) ≥ cfg.imageLimit - 1
    · rw [if_pos hbr]
      exact ⟨_, rfl⟩
    · rw [if_neg hbr]
      by_cases hpr : 1 < pc ∧ i + 1 < d
      · rw [if_pos hpr]
        have hpi : i + 1 < cfg.prompts.length := by
          rcases hp i (by simp) with h | h
          · exact absurd hpr h
          · exact h
        obtain ⟨p, hpv⟩ : ∃ p, cfg.prompts[i + 1]? = some p :=
          ⟨cfg.prompts[i + 1], List.getElem?_eq_getElem hpi⟩
        rw [hpv]
        exact ih _ (fun j hj => hm j (by simp [hj]))
          (fun j hj => hp j (by simp [hj]))
      · rw [if_neg hpr]
        exact ih _ (fun j hj => hm j (by simp [hj]))
          (fun j hj => hp j (by simp [hj]))

/-- The two-frame increase-mode run completes. -/
theorem run_cfg9_eval :
    ∃ a, processS s0 g0 np0 true cfg9 = .ok a := by
  rw [processS_eq_loop s0 g0 np0 true cfg9 p2 rfl (by norm_num [cfg9])
        (by simp [cfg9])]
  exact processLoopS_total s0 cfg9 p2.positive.length cfg9.prompts.length
    (List.range p2.positive.length) _
    (by intro i hi; fin_cases hi <;> norm_num [cfg9])
    (by intro i hi; left; norm_num [cfg9])

/-- Closed witness for C9: after the two-frame increase-mode run the
caller's cell still holds its original value. -/
theorem C9_witness :
    (processS s0 g0 np0 true cfg9).map (fun a => a.store.getD 0 []) =
      .ok [1] := by
  obtain ⟨a, hok⟩ := run_cfg9_eval
  have h := C9_caller_latent_preserved s0 g0 np0 true cfg9 a hok
  rw [hok]
  simp only [Except.map]
  rw [h]
  norm_num [cfg9]

/-- Closed witness for the amended C5, instantiating the environment. -/
theorem C5_flag_persistence_witness :
    initIsBouncingUp = true ∧
    flagProj (process s0 g0 np0 initIsBouncingUp cfgB1) = some false ∧
    trajProj (process s0 g0 np0 false cfgB2) = some [0] ∧
    trajProj (process s0 g0 np0 true cfgB2) = some [2] :=
  C5_flag_persistence s0 g0 np0
